import Mathlib

/-!
# Verification of the data loading and reconciliation layer of `app.py`

This file gives a shallow embedding of the `load_data` function of
`src/app.py` (the DataResolver of the specification) and proves the
specification's claims about it.

The embedding models:
* the three external sources (trade history, investment reports,
  recommendations), each of which can be absent, malformed, or present
  with tabular contents;
* the pandas readers (`pd.read_excel`, `pd.read_csv`), which raise
  `FileNotFoundError` on an absent file and a parse error (`ValueError` /
  `ParserError`) on a malformed one;
* the try/except fallback structure of `load_data`: trade history is
  synthesized from the current date on absence and re-raises on
  malformation; reports and recommendations fall back to fixed demo
  tables on absence and catch nothing else;
* the pandas left merge `inv_reports.merge(recs, on="Symbol", how="left")`
  followed by `merged["Weight"] = merged["Weight"].fillna(0)`: every
  report row is kept in order; a report row with k ≥ 1 matching
  recommendation rows produces k output rows (one per match, in
  recommendations order); a report row with no match produces one output
  row with Weight 0.

Numeric cell values are modelled as exact rationals (`ℚ`), dates as
integers counting days (so `datetime.today()` becomes an explicit
`today : ℤ` parameter of the embedding, making the clock dependence of
the synthesis branch visible).
-/

/-- A row of the trade-history table: `Date`, `PortfolioValue`
(`src/app.py` lines 19-22). Dates are modelled as day numbers. -/
structure TradeRow where
  date : ℤ
  portfolioValue : ℚ
deriving DecidableEq, Repr

/-- A row of the investment-reports table: `Symbol`, `InvScore`,
`InvReport` (`src/app.py` lines 32-36). -/
structure ReportRow where
  symbol : String
  invScore : ℚ
  invReport : String
deriving DecidableEq, Repr

/-- A row of the recommendations table: `Symbol`, `Weight`
(`src/app.py` lines 43-46). -/
structure RecRow where
  symbol : String
  weight : ℚ
deriving DecidableEq, Repr

/-- A row of the merged holdings table produced by
`inv_reports.merge(recs, on="Symbol", how="left")` (`src/app.py` line 49). -/
structure MergedRow where
  symbol : String
  invScore : ℚ
  invReport : String
  weight : ℚ
deriving DecidableEq, Repr

/-- The state of one external source file: missing, present but not
parseable as tabular data, or present with parsed rows. -/
inductive Source (α : Type) where
  | absent : Source α
  | malformed : Source α
  | present (rows : List α) : Source α
deriving DecidableEq, Repr

/-- The exceptions relevant to `load_data`: `FileNotFoundError`, raised by
the pandas readers on a missing file, and the parse errors (`ValueError`,
`pandas.errors.ParserError`) raised on a file that is not valid tabular
data. -/
inductive LoadError where
  | fileNotFound : LoadError
  | parseError : LoadError
deriving DecidableEq, Repr

/-- The pandas readers (`pd.read_excel` / `pd.read_csv`): an absent file
raises `FileNotFoundError`, a malformed one a parse error, and a present
well-formed one yields its rows. -/
def readTable {α : Type} : Source α → Except LoadError (List α)
  | .absent => .error .fileNotFound
  | .malformed => .error .parseError
  | .present rows => .ok rows

/-- The configuration of the three external sources read by `load_data`:
`trade_history.xlsx`, `stock_investment_reports.csv`,
`recommendations.csv`. -/
structure Env where
  trade_history_src : Source TradeRow
  inv_reports_src : Source ReportRow
  recs_src : Source RecRow
deriving DecidableEq, Repr

/-- The sample trade history synthesized when `trade_history.xlsx` is
missing (`src/app.py` lines 18-22):
`dates = pd.date_range(datetime.today() - timedelta(days=60), periods=60)`
and `PortfolioValue = 100000 * (1 + 0.005) ** np.arange(60)`. -/
def sample_trade_history (today : ℤ) : List TradeRow :=
  (List.range 60).map fun i : ℕ =>
    { date := today - 60 + (i : ℤ),
      portfolioValue := 100000 * (1 + 5/1000) ^ i }

/-- The trade-history branch of `load_data` (`src/app.py` lines 14-25):
`FileNotFoundError` is caught and the sample data substituted;
`ValueError` is caught, reported, and re-raised. -/
def loadTradeHistory (src : Source TradeRow) (today : ℤ) :
    Except LoadError (List TradeRow) :=
  match readTable src with
  | .ok t => .ok t
  | .error .fileNotFound => .ok (sample_trade_history today)
  | .error .parseError => .error .parseError

/-- The demo investment reports substituted when
`stock_investment_reports.csv` is missing (`src/app.py` lines 32-36). -/
def demo_inv_reports : List ReportRow :=
  [ { symbol := "AAPL", invScore := 92,
      invReport := "Strong momentum and AI-driven growth." },
    { symbol := "MSFT", invScore := 88,
      invReport := "Strong momentum and AI-driven growth." },
    { symbol := "NVDA", invScore := 85,
      invReport := "Strong momentum and AI-driven growth." },
    { symbol := "AMZN", invScore := 83,
      invReport := "Strong momentum and AI-driven growth." },
    { symbol := "META", invScore := 81,
      invReport := "Strong momentum and AI-driven growth." } ]

/-- The investment-reports branch of `load_data` (`src/app.py` lines
28-36): only `FileNotFoundError` is caught (demo data substituted); any
parse error propagates. -/
def loadInvReports (src : Source ReportRow) : Except LoadError (List ReportRow) :=
  match readTable src with
  | .ok t => .ok t
  | .error .fileNotFound => .ok demo_inv_reports
  | .error .parseError => .error .parseError

/-- The equal-weight portfolio substituted when `recommendations.csv` is
missing (`src/app.py` lines 43-46). -/
def demo_recs : List RecRow :=
  [ { symbol := "AAPL", weight := 2/10 },
    { symbol := "MSFT", weight := 2/10 },
    { symbol := "NVDA", weight := 2/10 },
    { symbol := "AMZN", weight := 2/10 },
    { symbol := "META", weight := 2/10 } ]

/-- The recommendations branch of `load_data` (`src/app.py` lines 39-46):
only `FileNotFoundError` is caught (equal-weight portfolio substituted);
any parse error propagates. -/
def loadRecs (src : Source RecRow) : Except LoadError (List RecRow) :=
  match readTable src with
  | .ok t => .ok t
  | .error .fileNotFound => .ok demo_recs
  | .error .parseError => .error .parseError

/-- The reconciliation `inv_reports.merge(recs, on="Symbol", how="left")`
followed by `merged["Weight"] = merged["Weight"].fillna(0)` (`src/app.py`
lines 49-50). Pandas left-merge semantics: left rows in order; each left row is
paired with every matching right row (in right order); a left row with no
match yields one row whose `Weight` is null, which `fillna(0)` turns
into 0. -/
def mergeRow (recs : List RecRow) (r : ReportRow) : List MergedRow :=
  match recs.filter (fun c => c.symbol = r.symbol) with
  | [] => [{ symbol := r.symbol, invScore := r.invScore,
             invReport := r.invReport, weight := 0 }]
  | ms => ms.map fun c =>
      { symbol := r.symbol, invScore := r.invScore,
        invReport := r.invReport, weight := c.weight }

/-- See `mergeRow`: the merged table is the concatenation, in report
order, of the output rows of each report row. -/
def mergeHoldings (inv_reports : List ReportRow) (recs : List RecRow) :
    List MergedRow :=
  inv_reports.flatMap (mergeRow recs)

/-- The resolver `load_data` (`src/app.py` lines 10-51): resolve the three
sources in order (any uncaught exception propagates, aborting the whole call), then
merge reports with recommendations and return the triple
`(trade_history, merged, recs)`. -/
def load_data (env : Env) (today : ℤ) :
    Except LoadError (List TradeRow × List MergedRow × List RecRow) :=
  match loadTradeHistory env.trade_history_src today with
  | .error e => .error e
  | .ok trade_history =>
    match loadInvReports env.inv_reports_src with
    | .error e => .error e
    | .ok inv_reports =>
      match loadRecs env.recs_src with
      | .error e => .error e
      | .ok recs => .ok (trade_history, mergeHoldings inv_reports recs, recs)

/-- The trade-history component of a `load_data` result, when it succeeded. -/
def tradePart (r : Except LoadError (List TradeRow × List MergedRow × List RecRow)) :
    Option (List TradeRow) :=
  match r with
  | .ok (t, _, _) => some t
  | .error _ => none

/-- The merged-holdings component of a `load_data` result, when it succeeded. -/
def mergedPart (r : Except LoadError (List TradeRow × List MergedRow × List RecRow)) :
    Option (List MergedRow) :=
  match r with
  | .ok (_, m, _) => some m
  | .error _ => none

/-- The recommendations component of a `load_data` result, when it succeeded. -/
def recsPart (r : Except LoadError (List TradeRow × List MergedRow × List RecRow)) :
    Option (List RecRow) :=
  match r with
  | .ok (_, _, c) => some c
  | .error _ => none

/-- The environment in which none of the three source files exists. -/
def allAbsent : Env :=
  { trade_history_src := .absent, inv_reports_src := .absent, recs_src := .absent }

/-- A source configuration whose recommendations file holds two rows for
the same symbol: a one-row reports file for AAPL, and a recommendations
file listing AAPL twice (weights 0.3 and 0.7). -/
def envDupRecs : Env :=
  { trade_history_src := .present [],
    inv_reports_src := .present
      [ { symbol := "AAPL", invScore := 92, invReport := "r" } ],
    recs_src := .present
      [ { symbol := "AAPL", weight := 3/10 },
        { symbol := "AAPL", weight := 7/10 } ] }

/-- A source configuration where only the reports file exists and is a
well-formed table with zero data rows (header only). -/
def envEmptyReports : Env :=
  { trade_history_src := .absent,
    inv_reports_src := .present [],
    recs_src := .absent }

/-- The source configuration of the spec's second scenario: only the
recommendations file exists, holding AAPL at weight 0.6 and MSFT at
weight 0.4. -/
def envOnlyRecs : Env :=
  { trade_history_src := .absent,
    inv_reports_src := .absent,
    recs_src := .present
      [ { symbol := "AAPL", weight := 6/10 },
        { symbol := "MSFT", weight := 4/10 } ] }

/-- A source is accepted by `load_data` without error and contributes a
non-empty table exactly when it is absent (synthesis applies) or present
with at least one row. -/
def Source.okWithRows {α : Type} : Source α → Bool
  | .absent => true
  | .malformed => false
  | .present rows => !rows.isEmpty

theorem load_data_ok_iff (env : Env) (today : ℤ) (th : List TradeRow)
    (m : List MergedRow) (r : List RecRow) :
    load_data env today = .ok (th, m, r) ↔
      loadTradeHistory env.trade_history_src today = .ok th ∧
      ∃ reports, loadInvReports env.inv_reports_src = .ok reports ∧
        loadRecs env.recs_src = .ok r ∧ m = mergeHoldings reports r := by
  unfold load_data
  cases h1 : loadTradeHistory env.trade_history_src today <;>
    cases h2 : loadInvReports env.inv_reports_src <;>
      cases h3 : loadRecs env.recs_src <;>
        simp_all
  rintro rfl
  constructor
  · rintro ⟨hm, rfl⟩; exact ⟨rfl, hm.symm⟩
  · rintro ⟨rfl, hm⟩; exact ⟨hm.symm, rfl⟩

theorem mergeRow_ne_nil (recs : List RecRow) (r : ReportRow) :
    mergeRow recs r ≠ [] := by
  unfold mergeRow
  cases h : recs.filter (fun c => c.symbol = r.symbol) <;> simp

theorem mem_mergeRow (recs : List RecRow) (r : ReportRow) (x : MergedRow)
    (hx : x ∈ mergeRow recs r) :
    x.symbol = r.symbol ∧
      (x.weight = 0 ∨ ∃ c ∈ recs, c.symbol = r.symbol ∧ x.weight = c.weight) := by
  unfold mergeRow at hx
  cases h : recs.filter (fun c => c.symbol = r.symbol) with
  | nil =>
      rw [h] at hx
      simp only [List.mem_singleton] at hx
      subst hx
      exact ⟨rfl, Or.inl rfl⟩
  | cons a l =>
      rw [h] at hx
      simp only [List.mem_map] at hx
      obtain ⟨c, hc, hcx⟩ := hx
      have hcmem : c ∈ recs.filter (fun c => c.symbol = r.symbol) := by
        rw [h]; exact hc
      rw [List.mem_filter] at hcmem
      subst hcx
      exact ⟨rfl, Or.inr ⟨c, hcmem.1, by simpa using hcmem.2, rfl⟩⟩

theorem filter_symbol_length_le_one (recs : List RecRow) (s : String)
    (h : (recs.map RecRow.symbol).Nodup) :
    (recs.filter (fun c => c.symbol = s)).length ≤ 1 := by
  induction recs with
  | nil => simp
  | cons a l ih =>
      simp only [List.map_cons, List.nodup_cons] at h
      obtain ⟨hna, hnd⟩ := h
      by_cases hs : a.symbol = s
      · have hnil : l.filter (fun c => decide (c.symbol = s)) = [] := by
          rw [List.filter_eq_nil_iff]
          intro c hc hcs
          exact hna (by simpa using ⟨c, hc, by simpa [hs] using hcs⟩)
        simp [List.filter_cons, hs, hnil]
      · simpa [List.filter_cons, hs] using ih hnd

theorem length_mergeRow_eq_one (recs : List RecRow) (r : ReportRow)
    (h : (recs.filter (fun c => c.symbol = r.symbol)).length ≤ 1) :
    (mergeRow recs r).length = 1 := by
  unfold mergeRow
  cases hf : recs.filter (fun c => c.symbol = r.symbol) with
  | nil => simp
  | cons a l =>
      rw [hf] at h
      simp only [List.length_cons, List.length_map] at h ⊢
      omega

theorem length_mergeHoldings_ge (inv_reports : List ReportRow)
    (recs : List RecRow) :
    inv_reports.length ≤ (mergeHoldings inv_reports recs).length := by
  induction inv_reports with
  | nil => simp [mergeHoldings]
  | cons r rs ih =>
      have h1 : 1 ≤ (mergeRow recs r).length :=
        List.length_pos.mpr (mergeRow_ne_nil recs r)
      simp only [mergeHoldings, List.flatMap_cons, List.length_append,
        List.length_cons] at ih ⊢
      omega

theorem length_mergeHoldings_eq (inv_reports : List ReportRow)
    (recs : List RecRow) (h : (recs.map RecRow.symbol).Nodup) :
    (mergeHoldings inv_reports recs).length = inv_reports.length := by
  induction inv_reports with
  | nil => simp [mergeHoldings]
  | cons r rs ih =>
      have h1 : (mergeRow recs r).length = 1 :=
        length_mergeRow_eq_one recs r (filter_symbol_length_le_one recs r.symbol h)
      simp only [mergeHoldings, List.flatMap_cons, List.length_append,
        List.length_cons] at ih ⊢
      omega

theorem mergeHoldings_ne_nil (inv_reports : List ReportRow)
    (recs : List RecRow) (h : inv_reports ≠ []) :
    mergeHoldings inv_reports recs ≠ [] := by
  have := length_mergeHoldings_ge inv_reports recs
  intro hnil
  rw [hnil] at this
  simp only [List.length_nil, Nat.le_zero, List.length_eq_zero] at this
  exact h this

/-- C1 counterexample: with a one-row reports table for AAPL and a
recommendations table listing AAPL twice, the investment-reports table
has 1 row but the merged table returned by `load_data` has 2 rows — the
left join duplicated the report row, refuting the claim that
`MergedHoldings` has exactly as many rows as the reports table for every
pair of input datasets. -/
theorem C1_dup_recs_counterexample :
    loadInvReports envDupRecs.inv_reports_src
        = Except.ok [{ symbol := "AAPL", invScore := 92, invReport := "r" }] ∧
      (mergedPart (load_data envDupRecs 0)).map List.length = some 2 :=
  ⟨rfl, rfl⟩

/-- C1 (amended): the left join on `Symbol` never drops a report row —
`MergedHoldings` always has at least as many rows as the
investment-reports table — and when the recommendations table has
pairwise-distinct Symbols it has exactly as many rows, one per report
row. -/
theorem C1_row_count_amended (env : Env) (today : ℤ)
    (th : List TradeRow) (m : List MergedRow) (r : List RecRow)
    (reports : List ReportRow)
    (hok : load_data env today = .ok (th, m, r))
    (hreports : loadInvReports env.inv_reports_src = .ok reports) :
    reports.length ≤ m.length ∧
      ((r.map RecRow.symbol).Nodup → m.length = reports.length) := by
  rw [load_data_ok_iff] at hok
  obtain ⟨-, reports', hrep', hrecs', hm⟩ := hok
  rw [hreports] at hrep'
  obtain rfl := Except.ok.inj hrep'
  subst hm
  exact ⟨length_mergeHoldings_ge reports r,
    fun hnd => length_mergeHoldings_eq reports r hnd⟩

/-- C1 witness: the amended row-count theorem applied to the concrete
configuration with all sources absent. -/
theorem C1_row_count_witness :
    demo_inv_reports.length ≤ (mergeHoldings demo_inv_reports demo_recs).length ∧
      ((demo_recs.map RecRow.symbol).Nodup →
        (mergeHoldings demo_inv_reports demo_recs).length
          = demo_inv_reports.length) :=
  C1_row_count_amended allAbsent 0 (sample_trade_history 0)
    (mergeHoldings demo_inv_reports demo_recs) demo_recs demo_inv_reports rfl rfl

/-- C2: if the trade-history source exists but is malformed, `load_data`
propagates the parse failure (`ValueError` is caught only to be
re-raised) and returns no datasets: its result is an error, not a triple,
so no synthetic or partial trade history is substituted. -/
theorem C2_malformed_trade_history_fatal (env : Env) (today : ℤ)
    (h : env.trade_history_src = .malformed) :
    load_data env today = .error .parseError := by
  simp [load_data, loadTradeHistory, readTable, h]

/-- C2 witness: a concrete configuration whose trade-history file is
malformed, with the other two sources absent. -/
theorem C2_malformed_trade_history_fatal_witness :
    load_data { trade_history_src := .malformed,
                inv_reports_src := .absent,
                recs_src := .absent } 0 = .error .parseError :=
  C2_malformed_trade_history_fatal _ 0 rfl

/-- C3 counterexample: with all three sources absent (a fixed
configuration of source contents), running `load_data` on two different
days yields different results — the synthesized trade-history dates
follow `datetime.today()`, so the result is not a pure function of the
source contents alone. -/
theorem C3_clock_dependence_counterexample :
    load_data allAbsent 0 ≠ load_data allAbsent 1 :=
  fun h => absurd (congrArg tradePart h) (by decide)

/-- C3 (amended): `load_data` is a pure function of the source contents
and the current date; the date enters only through the trade-history
synthesis branch, so whenever the trade-history source is present the
result is independent of the current date. -/
theorem C3_purity_amended (env : Env) (t1 t2 : ℤ) (rows : List TradeRow)
    (h : env.trade_history_src = .present rows) :
    load_data env t1 = load_data env t2 := by
  simp [load_data, loadTradeHistory, readTable, h]

/-- C3 witness: with a present (empty) trade-history file and the other
sources absent, `load_data` gives the same result on day 0 and day 1. -/
theorem C3_purity_witness :
    load_data { trade_history_src := .present [],
                inv_reports_src := .absent,
                recs_src := .absent } 0
      = load_data { trade_history_src := .present [],
                    inv_reports_src := .absent,
                    recs_src := .absent } 1 :=
  C3_purity_amended _ 0 1 [] rfl

theorem sample_trade_history_length (today : ℤ) :
    (sample_trade_history today).length = 60 := by
  simp only [sample_trade_history, List.length_map, List.length_range]

theorem sample_trade_history_get (today : ℤ)
    (i : Fin (sample_trade_history today).length) :
    (sample_trade_history today).get i =
      { date := today - 60 + (i : ℕ),
        portfolioValue := 100000 * (1 + 5/1000) ^ (i : ℕ) } := by
  rcases i with ⟨i, hi⟩
  simp only [sample_trade_history, List.get_eq_getElem, List.getElem_map,
    List.getElem_range]

theorem sample_trade_history_step (today : ℤ) :
    (sample_trade_history today).Chain'
      (fun a b => b.date = a.date + 1 ∧
        b.portfolioValue = (1 + 5/1000) * a.portfolioValue) := by
  unfold sample_trade_history
  rw [List.chain'_map, show (60 : ℕ) = Nat.succ 59 from rfl,
    List.chain'_range_succ]
  intro m hm
  constructor
  · push_cast
    ring
  · rw [Nat.succ_eq_add_one, pow_succ]
    ring

theorem sample_trade_history_strict_mono (today : ℤ) :
    (sample_trade_history today).Chain'
      (fun a b => a.date < b.date ∧ a.portfolioValue < b.portfolioValue) := by
  unfold sample_trade_history
  rw [List.chain'_map, show (60 : ℕ) = Nat.succ 59 from rfl,
    List.chain'_range_succ]
  intro m hm
  constructor
  · push_cast
    omega
  · have h1 : (0 : ℚ) < (1 + 5/1000) ^ m := by positivity
    rw [Nat.succ_eq_add_one, pow_succ]
    nlinarith [h1]

/-- C5: whenever the trade-history source is missing, the trade history
returned by `load_data` is the synthesized sample: exactly 60 records,
record i dated `today - 60 + i` (one per day, starting 60 days before
today, strictly increasing), with `PortfolioValue = 100000 * 1.005 ^ i`,
so consecutive records grow by exactly the factor 1.005 and the value is
strictly monotonically increasing. -/
theorem C5_synthesized_history (env : Env) (today : ℤ) (th : List TradeRow)
    (habs : env.trade_history_src = .absent)
    (hth : tradePart (load_data env today) = some th) :
    th.length = 60 ∧
      (∀ i : Fin th.length, th.get i =
        { date := today - 60 + (i : ℕ),
          portfolioValue := 100000 * (1 + 5/1000) ^ (i : ℕ) }) ∧
      th.Chain' (fun a b => b.date = a.date + 1 ∧
        b.portfolioValue = (1 + 5/1000) * a.portfolioValue) ∧
      th.Chain' (fun a b => a.date < b.date ∧
        a.portfolioValue < b.portfolioValue) := by
  have hsample : th = sample_trade_history today := by
    simp only [load_data, loadTradeHistory, readTable, habs] at hth
    cases h2 : loadInvReports env.inv_reports_src with
    | error e => rw [h2] at hth; simp [tradePart] at hth
    | ok reports =>
        rw [h2] at hth
        cases h3 : loadRecs env.recs_src with
        | error e => rw [h3] at hth; simp [tradePart] at hth
        | ok recs =>
            rw [h3] at hth
            simp only [tradePart, Option.some.injEq] at hth
            exact hth.symm
  subst hsample
  exact ⟨sample_trade_history_length today, sample_trade_history_get today,
    sample_trade_history_step today, sample_trade_history_strict_mono today⟩

/-- C5 witness: the synthesized-history theorem applied to the concrete
configuration with all sources absent, on day 0. -/
theorem C5_synthesized_history_witness :
    (sample_trade_history 0).length = 60 ∧
      (∀ i : Fin (sample_trade_history 0).length,
        (sample_trade_history 0).get i =
          { date := (0 : ℤ) - 60 + (i : ℕ),
            portfolioValue := 100000 * (1 + 5/1000) ^ (i : ℕ) }) ∧
      (sample_trade_history 0).Chain' (fun a b => b.date = a.date + 1 ∧
        b.portfolioValue = (1 + 5/1000) * a.portfolioValue) ∧
      (sample_trade_history 0).Chain' (fun a b => a.date < b.date ∧
        a.portfolioValue < b.portfolioValue) :=
  C5_synthesized_history allAbsent 0 (sample_trade_history 0) rfl rfl

/-- C4: every row of the merged table has `Weight ≥ 0` (the data model
types recommendation weights as non-negative decimals, here a
hypothesis on the recommendations source), and every merged row whose
symbol matches no recommendation in the returned recommendations table
has `Weight` exactly 0 — `fillna(0)` leaves no null weight. -/
theorem C4_merged_weights (env : Env) (today : ℤ)
    (th : List TradeRow) (m : List MergedRow) (r : List RecRow)
    (hpos : ∀ t, env.recs_src = .present t → ∀ c ∈ t, 0 ≤ c.weight)
    (hok : load_data env today = .ok (th, m, r)) :
    (∀ row ∈ m, 0 ≤ row.weight) ∧
      (∀ row ∈ m, (∀ c ∈ r, c.symbol ≠ row.symbol) → row.weight = 0) := by
  rw [load_data_ok_iff] at hok
  obtain ⟨-, reports, hrep, hrecs, hm⟩ := hok
  subst hm
  have hrpos : ∀ c ∈ r, 0 ≤ c.weight := by
    cases hsrc : env.recs_src with
    | absent =>
        rw [hsrc] at hrecs
        simp only [loadRecs, readTable, Except.ok.injEq] at hrecs
        subst hrecs
        intro c hc
        simp only [demo_recs] at hc
        fin_cases hc <;> norm_num
    | malformed =>
        rw [hsrc] at hrecs
        simp [loadRecs, readTable] at hrecs
    | present t =>
        rw [hsrc] at hrecs
        simp only [loadRecs, readTable, Except.ok.injEq] at hrecs
        subst hrecs
        exact hpos _ hsrc
  constructor
  · intro row hrow
    obtain ⟨rpt, hrpt, hx⟩ := List.mem_flatMap.mp hrow
    obtain ⟨-, h0 | ⟨c, hc, -, hw⟩⟩ := mem_mergeRow r rpt row hx
    · rw [h0]
    · rw [hw]
      exact hrpos c hc
  · intro row hrow hnomatch
    obtain ⟨rpt, hrpt, hx⟩ := List.mem_flatMap.mp hrow
    obtain ⟨hsym, h0 | ⟨c, hc, hcsym, hw⟩⟩ := mem_mergeRow r rpt row hx
    · exact h0
    · exact absurd (hcsym.trans hsym.symm) (hnomatch c hc)

/-- C4 witness: the weight theorem applied to the concrete configuration
with all sources absent. -/
theorem C4_merged_weights_witness :
    (∀ row ∈ mergeHoldings demo_inv_reports demo_recs, 0 ≤ row.weight) ∧
      (∀ row ∈ mergeHoldings demo_inv_reports demo_recs,
        (∀ c ∈ demo_recs, c.symbol ≠ row.symbol) → row.weight = 0) :=
  C4_merged_weights allAbsent 0 (sample_trade_history 0)
    (mergeHoldings demo_inv_reports demo_recs) demo_recs
    (fun _ ht => nomatch ht) rfl

theorem sample_trade_history_ne_nil (today : ℤ) :
    sample_trade_history today ≠ [] := by
  intro h
  have := sample_trade_history_length today
  rw [h] at this
  simp at this

theorem loadTradeHistory_ok_of_okWithRows (src : Source TradeRow) (today : ℤ)
    (h : src.okWithRows = true) :
    ∃ th, loadTradeHistory src today = .ok th ∧ th ≠ [] := by
  cases src with
  | absent =>
      exact ⟨sample_trade_history today, rfl, sample_trade_history_ne_nil today⟩
  | malformed => simp [Source.okWithRows] at h
  | present rows =>
      refine ⟨rows, rfl, ?_⟩
      simpa [Source.okWithRows, List.isEmpty_iff] using h

theorem loadInvReports_ok_of_okWithRows (src : Source ReportRow)
    (h : src.okWithRows = true) :
    ∃ t, loadInvReports src = .ok t ∧ t ≠ [] := by
  cases src with
  | absent => exact ⟨demo_inv_reports, rfl, by simp [demo_inv_reports]⟩
  | malformed => simp [Source.okWithRows] at h
  | present rows =>
      refine ⟨rows, rfl, ?_⟩
      simpa [Source.okWithRows, List.isEmpty_iff] using h

theorem loadRecs_ok_of_okWithRows (src : Source RecRow)
    (h : src.okWithRows = true) :
    ∃ t, loadRecs src = .ok t ∧ t ≠ [] := by
  cases src with
  | absent => exact ⟨demo_recs, rfl, by simp [demo_recs]⟩
  | malformed => simp [Source.okWithRows] at h
  | present rows =>
      refine ⟨rows, rfl, ?_⟩
      simpa [Source.okWithRows, List.isEmpty_iff] using h

/-- C6 counterexample: the reports source present as a well-formed table
with zero data rows (and the other two sources absent) is one of the 8
absent/present combinations, yet `load_data` returns an empty
`MergedHoldings` table — refuting "three non-empty datasets" as stated.
(`load_data` does still succeed.) -/
theorem C6_empty_reports_counterexample :
    load_data envEmptyReports 0
      = .ok (sample_trade_history 0, [], demo_recs) := rfl

/-- C6 (amended): for every combination of the three sources being
absent or present — present sources well-formed and containing at least
one row — `load_data` returns successfully with three non-empty
datasets; absence of any source is recovered by synthesis, never
surfaced as a failure. -/
theorem C6_all_combinations_amended (env : Env) (today : ℤ)
    (h1 : env.trade_history_src.okWithRows = true)
    (h2 : env.inv_reports_src.okWithRows = true)
    (h3 : env.recs_src.okWithRows = true) :
    ∃ th m r, load_data env today = .ok (th, m, r) ∧
      th ≠ [] ∧ m ≠ [] ∧ r ≠ [] := by
  obtain ⟨th, hth, hthne⟩ :=
    loadTradeHistory_ok_of_okWithRows env.trade_history_src today h1
  obtain ⟨reports, hrp, hrpne⟩ :=
    loadInvReports_ok_of_okWithRows env.inv_reports_src h2
  obtain ⟨r, hr, hrne⟩ := loadRecs_ok_of_okWithRows env.recs_src h3
  exact ⟨th, mergeHoldings reports r, r,
    (load_data_ok_iff env today th (mergeHoldings reports r) r).mpr
      ⟨hth, reports, hrp, hr, rfl⟩,
    hthne, mergeHoldings_ne_nil reports r hrpne, hrne⟩

/-- C6 witness: the amended theorem applied to the all-absent
combination on day 0. -/
theorem C6_all_combinations_witness :
    ∃ th m r, load_data allAbsent 0 = .ok (th, m, r) ∧
      th ≠ [] ∧ m ≠ [] ∧ r ≠ [] :=
  C6_all_combinations_amended allAbsent 0 rfl rfl rfl

/-- C7: with no source files present, `load_data` returns a 60-row trade
history whose first `PortfolioValue` is 100000, and a 5-row merged table
for exactly the symbols AAPL, MSFT, NVDA, AMZN, META, each row with a
non-zero `Weight`, the five weights summing to 1. -/
theorem C7_no_sources_scenario (today : ℤ) :
    ∃ th m r, load_data allAbsent today = .ok (th, m, r) ∧
      th.length = 60 ∧
      th.head?.map TradeRow.portfolioValue = some 100000 ∧
      m.length = 5 ∧
      m.map MergedRow.symbol = ["AAPL", "MSFT", "NVDA", "AMZN", "META"] ∧
      (∀ row ∈ m, row.weight ≠ 0) ∧
      (m.map MergedRow.weight).sum = 1 := by
  have hm : mergeHoldings demo_inv_reports demo_recs =
      [ { symbol := "AAPL", invScore := 92,
          invReport := "Strong momentum and AI-driven growth.",
          weight := 2/10 },
        { symbol := "MSFT", invScore := 88,
          invReport := "Strong momentum and AI-driven growth.",
          weight := 2/10 },
        { symbol := "NVDA", invScore := 85,
          invReport := "Strong momentum and AI-driven growth.",
          weight := 2/10 },
        { symbol := "AMZN", invScore := 83,
          invReport := "Strong momentum and AI-driven growth.",
          weight := 2/10 },
        { symbol := "META", invScore := 81,
          invReport := "Strong momentum and AI-driven growth.",
          weight := 2/10 } ] := rfl
  refine ⟨sample_trade_history today, mergeHoldings demo_inv_reports demo_recs,
    demo_recs, rfl, sample_trade_history_length today, ?_, ?_, ?_, ?_, ?_⟩
  · unfold sample_trade_history
    rw [show (60 : ℕ) = Nat.succ 59 from rfl, List.range_succ_eq_map]
    simp only [List.map_cons, List.head?_cons, Option.map_some]
    norm_num
  · rw [hm]
    rfl
  · rw [hm]
    rfl
  · rw [hm]
    intro row hrow
    fin_cases hrow <;> norm_num
  · rw [hm]
    norm_num

/-- C8: with only the recommendations source present, holding AAPL at
weight 0.6 and MSFT at weight 0.4, the merged table contains exactly the
5 synthesized demo symbols, AAPL and MSFT carrying the real weights 0.6
and 0.4 from the file, and the other three carrying weight 0. -/
theorem C8_only_recs_scenario (today : ℤ) :
    ∃ th, load_data envOnlyRecs today
        = .ok (th,
          [ { symbol := "AAPL", invScore := 92,
              invReport := "Strong momentum and AI-driven growth.",
              weight := 6/10 },
            { symbol := "MSFT", invScore := 88,
              invReport := "Strong momentum and AI-driven growth.",
              weight := 4/10 },
            { symbol := "NVDA", invScore := 85,
              invReport := "Strong momentum and AI-driven growth.",
              weight := 0 },
            { symbol := "AMZN", invScore := 83,
              invReport := "Strong momentum and AI-driven growth.",
              weight := 0 },
            { symbol := "META", invScore := 81,
              invReport := "Strong momentum and AI-driven growth.",
              weight := 0 } ],
          [ { symbol := "AAPL", weight := 6/10 },
            { symbol := "MSFT", weight := 4/10 } ]) :=
  ⟨sample_trade_history today, rfl⟩

/-- C9: when the recommendations source is present and its weights sum
to 1, `load_data` passes the table through verbatim as its third result
— no renormalization, same weights, same sum. -/
theorem C9_no_renormalization (env : Env) (today : ℤ) (t : List RecRow)
    (hsrc : env.recs_src = .present t)
    (hsum : (t.map RecRow.weight).sum = 1)
    (th : List TradeRow) (m : List MergedRow) (r : List RecRow)
    (hok : load_data env today = .ok (th, m, r)) :
    r = t ∧ (r.map RecRow.weight).sum = 1 := by
  rw [load_data_ok_iff] at hok
  obtain ⟨-, reports, -, hrecs, -⟩ := hok
  rw [hsrc] at hrecs
  simp only [loadRecs, readTable, Except.ok.injEq] at hrecs
  subst hrecs
  exact ⟨rfl, hsum⟩

/-- C9 witness: the pass-through theorem applied to the configuration
where only the recommendations source is present with weights 0.6 and
0.4. -/
theorem C9_no_renormalization_witness :
    ([ { symbol := "AAPL", weight := 6/10 },
       { symbol := "MSFT", weight := (4/10 : ℚ) } ] : List RecRow)
        = [ { symbol := "AAPL", weight := 6/10 },
            { symbol := "MSFT", weight := 4/10 } ] ∧
      (([ { symbol := "AAPL", weight := 6/10 },
          { symbol := "MSFT", weight := (4/10 : ℚ) } ] : List RecRow).map
        RecRow.weight).sum = 1 :=
  C9_no_renormalization envOnlyRecs 0
    [ { symbol := "AAPL", weight := 6/10 },
      { symbol := "MSFT", weight := 4/10 } ]
    rfl (by norm_num) (sample_trade_history 0)
    (mergeHoldings demo_inv_reports
      [ { symbol := "AAPL", weight := 6/10 },
        { symbol := "MSFT", weight := 4/10 } ])
    [ { symbol := "AAPL", weight := 6/10 },
      { symbol := "MSFT", weight := 4/10 } ]
    rfl

/-- C10: malformedness of the reports or recommendations source is not
checked: if the trade-history source is not itself malformed and one of
those two sources is present but unparseable, `load_data` propagates the
parse failure (no fallback branch catches it) and substitutes no
synthetic data — the result is an error, not a triple. -/
theorem C10_malformed_aux_propagates (env : Env) (today : ℤ)
    (hth : env.trade_history_src ≠ .malformed)
    (h : env.inv_reports_src = .malformed ∨ env.recs_src = .malformed) :
    load_data env today = .error .parseError := by
  cases h with
  | inl h2 =>
      cases hs : env.trade_history_src with
      | malformed => exact absurd hs hth
      | absent =>
          simp [load_data, loadTradeHistory, loadInvReports, readTable, hs, h2]
      | present rows =>
          simp [load_data, loadTradeHistory, loadInvReports, readTable, hs, h2]
  | inr h3 =>
      cases hs : env.trade_history_src with
      | malformed => exact absurd hs hth
      | absent =>
          cases hs2 : env.inv_reports_src <;>
            simp [load_data, loadTradeHistory, loadInvReports, loadRecs,
              readTable, hs, hs2, h3]
      | present rows =>
          cases hs2 : env.inv_reports_src <;>
            simp [load_data, loadTradeHistory, loadInvReports, loadRecs,
              readTable, hs, hs2, h3]

/-- C10 witness: a malformed reports source with the other two sources
absent makes `load_data` fail with the parse error. -/
theorem C10_malformed_aux_propagates_witness :
    load_data { trade_history_src := .absent,
                inv_reports_src := .malformed,
                recs_src := .absent } 0 = .error .parseError :=
  C10_malformed_aux_propagates _ 0 (fun hh => nomatch hh) (Or.inl rfl)
